import Mathlib

/-!
A verification development for the `phone_parser` library
(`src/phone_parser/phone.py`): parsing, validation and formatting of
international phone numbers.  The pipeline of `phone.py` (extension
extraction, normalization, country/area/number segmentation, default
injection, formatting) is embedded over `List Char`, with the exact
left-to-right, alternation-ordered, greedy backtracking behaviour of the
three regular expressions the module uses (`COMMON_EXTENSIONS`,
`COMMON_EXTRAS`, `FORMAT_TOKENS`) reproduced by dedicated matchers.
The companion module `phone_parser/country.py` (class `Country` and
`CountryRegistry`) is not part of the sources; its interface is modelled
from the specification, as marked on each such definition.
-/

namespace PhoneToolkit

/-- Boolean prefix test on character lists (Python's `str.startswith`
and the anchored-regex prefix tests reduce to this). -/
def isPre : List Char → List Char → Bool
  | [], _ => true
  | _ :: _, [] => false
  | a :: as, b :: bs => a = b && isPre as bs

/-- Python's `str.replace(old, new, 1)`: replace the first occurrence of
`t` (scanning left to right) by `r`; if `t` does not occur, the string is
unchanged.  Only called with non-empty `t`. -/
def replaceFirst (t r : List Char) : List Char → List Char
  | [] => []
  | c :: rest =>
    if isPre t (c :: rest) then r ++ (c :: rest).drop t.length
    else c :: replaceFirst t r rest

/-! ### The extension regex `(ext|ex|x|xt|#|:)+[^0-9]*([-0-9]{1,})*#?$`

`_extract_extension` searches for this pattern (Python `re.search`) and
removes the matched span (`re.sub`).  Because the pattern is anchored
with `$`, a match starting at position `i` consumes the rest of the
string, except that Python's `$` also matches just before a final
newline, in which case the trailing `'\n'` is left unconsumed.  The
matcher below reproduces the engine's backtracking order (ordered
alternation, greedy `+`/`*`/`?`), returning the unconsumed remainder
(`[]` or `['\n']`) of the first successful path. -/

/-- `$` of the extension regex: succeeds at the end of the string or just
before a terminating newline (Python semantics without `re.MULTILINE`). -/
def dollarOk (l : List Char) : Bool := l = [] || l = ['\n']

/-- Remainder accepted by `$`, if any. -/
def dOpt (l : List Char) : Option (List Char) :=
  if dollarOk l then some l else none

/-- `#?$`: greedy optional `#` followed by `$`. -/
def hashDollar (l : List Char) : Option (List Char) :=
  match l with
  | '#' :: r => (dOpt r).orElse fun _ => dOpt l
  | _ => dOpt l

/-- Character class `[-0-9]` of the extension regex. -/
def inRunClass (c : Char) : Bool := c = '-' || c.isDigit

/-- Try `#?$` after consuming `t+1, t, ..., 0` class characters (the
greedy star backtracks from longest to shortest). -/
def runsDown (l : List Char) : Nat → Option (List Char)
  | 0 => hashDollar l
  | t + 1 => (hashDollar (l.drop (t + 1))).orElse fun _ => runsDown l t

/-- `([-0-9]{1,})*#?$`: the star can consume any number of `[-0-9]`
characters up to the maximal class run, longest first. -/
def runsThen (l : List Char) : Option (List Char) :=
  runsDown l (l.takeWhile inRunClass).length

/-- Backtracking for `[^0-9]*`, longest first, then the digit runs. -/
def fillerDown (l : List Char) : Nat → Option (List Char)
  | 0 => runsThen l
  | t + 1 => (runsThen (l.drop (t + 1))).orElse fun _ => fillerDown l t

/-- `[^0-9]*([-0-9]{1,})*#?$`. -/
def fillerThen (l : List Char) : Option (List Char) :=
  fillerDown l (l.takeWhile (fun c => !c.isDigit)).length

/-- `(ext|ex|x|xt|#|:)+` followed by the tail of the pattern.  The
alternatives are tried in the regex's order, and the greedy `+` prefers
consuming another token over moving on to the tail.  Fuel bounds the
recursion; every token consumes at least one character, so fuel
`l.length + 1` is always sufficient. -/
def tokensPlusF : Nat → List Char → Option (List Char)
  | 0, _ => none
  | f + 1, l =>
    let go : List Char → Option (List Char) := fun t =>
      if isPre t l then
        (tokensPlusF f (l.drop t.length)).orElse fun _ => fillerThen (l.drop t.length)
      else none
    (((((go ['e', 'x', 't']).orElse fun _ => go ['e', 'x']).orElse fun _ =>
        go ['x']).orElse fun _ => go ['x', 't']).orElse fun _ =>
        go ['#']).orElse fun _ => go [':']

/-- Whether the extension pattern matches starting at the head of `l`;
on success, the unconsumed remainder (`[]`, or `['\n']` when `$` matched
before a final newline). -/
def extMatch (l : List Char) : Option (List Char) :=
  tokensPlusF (l.length + 1) l

/-- `re.search`: the leftmost start position at which the pattern
matches, together with the remainder left by that match. -/
def extSearchAux : Nat → List Char → Option (Nat × List Char)
  | i, l =>
    match extMatch l with
    | some rem => some (i, rem)
    | none =>
      match l with
      | [] => none
      | _ :: r => extSearchAux (i + 1) r

/-- `_extract_extension`: returns `(text with the matched span removed,
the matched extension text verbatim)`; `("", original)` layout as in the
source: `(clean_number, extension)`. -/
def extractExtensionL (l : List Char) : List Char × List Char :=
  match extSearchAux 0 l with
  | none => (l, [])
  | some (i, rem) => (l.take i ++ rem, (l.drop i).take (l.length - i - rem.length))

/-! ### Normalization: `COMMON_EXTRAS = (\(0\)|[^0-9+]|^\+?00?)` -/

/-- One match attempt of `COMMON_EXTRAS` at the current position
(`atStart` true only at position 0, for the `^` anchor).  Alternatives
in the regex's order: the literal `"(0)"`, any character that is neither
a digit nor `'+'`, or at the start of the string a greedy
`\+?00?` (`"+00"`, `"+0"`, `"00"` or `"0"`). -/
def extrasMatchAt (atStart : Bool) (l : List Char) : Option (List Char) :=
  match l with
  | '(' :: '0' :: ')' :: _ => some ['(', '0', ')']
  | c :: rest =>
    if !(c.isDigit || c = '+') then some [c]
    else if atStart then
      match c, rest with
      | '+', '0' :: '0' :: _ => some ['+', '0', '0']
      | '+', '0' :: _ => some ['+', '0']
      | '0', '0' :: _ => some ['0', '0']
      | '0', _ => some ['0']
      | _, _ => none
    else none
  | [] => none

/-- `re.findall(COMMON_EXTRAS, l)`: all non-overlapping matches, left to
right (the single capture group is the whole match).  Fuel
`l.length` suffices: every step consumes at least one character. -/
def extrasFindallF : Nat → Bool → List Char → List (List Char)
  | 0, _, _ => []
  | f + 1, atStart, l =>
    match extrasMatchAt atStart l with
    | some m => m :: extrasFindallF f false (l.drop m.length)
    | none =>
      match l with
      | [] => []
      | _ :: r => extrasFindallF f false r

def extrasFindall (l : List Char) : List (List Char) :=
  extrasFindallF l.length true l

/-- `re.sub(COMMON_EXTRAS, repl, l, count=1)`: replace the leftmost
match by `repl`; `acc` holds the characters already passed over
(reversed), so the `^` anchor is live exactly while `acc` is empty. -/
def extrasSubOneF (repl : List Char) : Nat → List Char → List Char → List Char → List Char
  | 0, orig, _, _ => orig
  | f + 1, orig, acc, l =>
    match extrasMatchAt acc.isEmpty l with
    | some m => acc.reverse ++ repl ++ l.drop m.length
    | none =>
      match l with
      | [] => orig
      | c :: r => extrasSubOneF repl f orig (c :: acc) r

def extrasSubOne (repl l : List Char) : List Char :=
  extrasSubOneF repl (l.length + 1) l [] l

/-- The `EXTRA_REPLACEMENTS` table; any other matched text is replaced
by the empty string (`replacements.get(match, "")`). -/
def extraRepl (m : List Char) : List Char :=
  if m = ['(', '0', ')'] then ['+']
  else if m = ['0', '0'] then ['+']
  else if m = ['+', '0', '0'] then ['+']
  else if m = ['+', '0'] then ['+']
  else []

/-- `_normalize`: the match list is computed once on the input, then each
entry performs one `count=1` substitution on the evolving result. -/
def normalizeL (l : List Char) : List Char :=
  (extrasFindall l).foldl (fun r m => extrasSubOne (extraRepl m) r) l

/-- `_normalize` on strings. -/
def normalize (s : String) : String := String.mk (normalizeL s.data)

/-! ### The country registry

`phone.py` imports `Country`/`CountryRegistry` from
`phone_parser.country`, which is not among the sources; the interface is
modelled from the specification (§4.1): per-country dialing metadata,
longest-dialing-code-prefix detection with a fallback default code, a
matcher extracting the longest valid area-code prefix, and a
digit-count-based national format check. -/

/-- Modelled from the spec: a Country Record — dialing metadata for one
country.  `areaMatch` is the spec's `area_code_pattern_matcher` (longest
valid area-code prefix of a leading-zero-stripped string, or none);
`formatOk` is `detect_format` reduced to whether some national length
pattern matches (the format identifier itself is unused by `phone.py`). -/
structure Country where
  name : String
  country_code : String
  areaMatch : List Char → Option (List Char)
  formatOk : List Char → Bool

/-- Modelled from the spec: Croatia's area-code rule — the single digit
`1` (Zagreb) or two digits `[2-9][0-9]`, longest first, matching the
spec's example `parse("+385915125486")` → area code `"91"`. -/
def hrAreaMatch : List Char → Option (List Char)
  | c1 :: c2 :: _ =>
    if c1.isDigit && !(c1 = '0') && !(c1 = '1') && c2.isDigit then some [c1, c2]
    else if c1 = '1' then some ['1'] else none
  | [c1] => if c1 = '1' then some ['1'] else none
  | [] => none

/-- Modelled from the spec: US area codes are three digits `[2-9][0-9][0-9]`. -/
def usAreaMatch : List Char → Option (List Char)
  | c1 :: c2 :: c3 :: _ =>
    if c1.isDigit && !(c1 = '0') && !(c1 = '1') && c2.isDigit && c3.isDigit then
      some [c1, c2, c3]
    else none
  | _ => none

/-- Modelled from the spec: a working string is a well-formed national
number shape when it is all digits and its digit count lies within the
country's recognized lengths. -/
def digitsLenOk (lo hi : Nat) (l : List Char) : Bool :=
  !l.isEmpty && l.all (·.isDigit) && decide (lo ≤ l.length) && decide (l.length ≤ hi)

/-- Modelled from the spec: the Croatia entry of the registry. -/
def croatia : Country := ⟨"Croatia", "385", hrAreaMatch, digitsLenOk 6 10⟩

/-- Modelled from the spec: the United States entry of the registry. -/
def usa : Country := ⟨"United States", "1", usAreaMatch, digitsLenOk 7 11⟩

/-- Modelled from the spec: the static country table, restricted to the
countries the specification's examples exercise. -/
def registry : List Country := [croatia, usa]

/-- Modelled from the spec: longest-dialing-code tie-break for country
detection (dialing codes are unique, so ties do not arise). -/
def pickLongest (l : List Country) : Option Country :=
  l.foldl
    (fun acc c =>
      match acc with
      | none => some c
      | some b =>
        if b.country_code.length < c.country_code.length then some c else some b)
    none

/-- Modelled from the spec: `CountryRegistry.detect_from_number(text,
fallback)` — the country whose `"+" ++ dialing code` is a prefix of the
text, longest dialing code winning; otherwise, a non-empty fallback
default dialing code identifying a known country; otherwise none. -/
def detect_from_number (l : List Char) (dflt : String) : Option Country :=
  match pickLongest (registry.filter fun c => isPre ('+' :: c.country_code.data) l) with
  | some c => some c
  | none =>
    if dflt = "" then none
    else registry.find? fun c => c.country_code = dflt

/-- Modelled from the spec: `country.country_code_regexp().sub("0", l)` —
replace the country-code prefix `"+" ++ code` by a single leading `"0"`
(the regex is anchored, so it rewrites at most once). -/
def ccSubL (code : List Char) (l : List Char) : List Char :=
  if isPre ('+' :: code) l then '0' :: l.drop (code.length + 1) else l

/-! ### Segmentation, parsing, validation (`phone.py`) -/

/-- The failure kinds of `parse` (each a distinct `ValueError` message in
the source). -/
inductive PErr where
  | MissingCountryCode
  | MissingAreaCode
  | MissingNumber
  | InvalidFormat (cname : String)
deriving DecidableEq

/-- `_split_to_parts`: detect the country, rewrite the country-code
prefix to a leading zero, check the national format, and extract
`(number, area_code, country_code)`.  The area code is taken from the
leading-zero-stripped working string only when the explicit country-code
prefix was present; an empty (or missing) area match leaves the whole
string as the number. -/
def splitToParts (l : List Char) (dflt : String) :
    Except PErr (List Char × List Char × List Char) :=
  match detect_from_number l dflt with
  | none => .error .MissingCountryCode
  | some c =>
    let working := ccSubL c.country_code.data l
    if c.formatOk working then
      if isPre ('+' :: c.country_code.data) l then
        let noZero := working.dropWhile (· = '0')
        let a := (c.areaMatch noZero).getD []
        if a.isEmpty then .ok (noZero, [], '+' :: c.country_code.data)
        else .ok (noZero.drop a.length, a, '+' :: c.country_code.data)
      else .ok (working.dropWhile (· = '0'), [], '+' :: c.country_code.data)
    else .error (.InvalidFormat c.name)

/-- The `Phone` dataclass.  The constructor performs no validation
(plain dataclass fields). -/
structure Phone where
  number : String
  area_code : String
  country_code : String
  extension : String := ""
  n1_length : Nat := 3
deriving DecidableEq

/-- Python `str.strip()` on ASCII whitespace; `parse` returns its "no
result" outcome exactly when the stripped input is empty. -/
def isPySpace (c : Char) : Bool :=
  c = ' ' || c = '\t' || c = '\n' || c = '\r' || c.val = 11 || c.val = 12

def pyIsBlank (s : String) : Bool := s.data.all isPySpace

/-- `parse(phone_string)`, with the process-wide default country and
area codes passed explicitly (`""` models an unset default; Python
truthiness of the globals).  `Except.ok none` is the empty-input "no
result" outcome; `Except.error` the `ValueError` outcomes. -/
def parse (s defCC defAC : String) : Except PErr (Option Phone) :=
  if pyIsBlank s then .ok none
  else
    match splitToParts (normalizeL (extractExtensionL s.data).1) defCC with
    | .error e => .error e
    | .ok (n, a, cc) =>
      match (if cc.isEmpty then
              (if defCC = "" then none else some ('+' :: defCC.data))
             else some cc) with
      | none => .error PErr.MissingCountryCode
      | some ccv =>
        match (if a.isEmpty then
                (if defAC = "" then none else some defAC.data)
               else some a) with
        | none => .error PErr.MissingAreaCode
        | some av =>
          if n.isEmpty then .error PErr.MissingNumber
          else .ok (some ⟨String.mk n, String.mk av, String.mk ccv,
                          String.mk (extractExtensionL s.data).2, 3⟩)

/-- `is_valid`: `parse(...) is not None`, with every `ValueError`
converted to `False`. -/
def is_valid (s defCC defAC : String) : Bool :=
  match parse s defCC defAC with
  | .ok (some _) => true
  | _ => false

/-! ### Formatting (`Phone.format`, `_format_number`, `_remove_useless_plus`) -/

/-- First `n1_length` characters of the subscriber number. -/
def Phone.number1 (p : Phone) : String := String.mk (p.number.data.take p.n1_length)

/-- Characters of the subscriber number after the first `n1_length`. -/
def Phone.number2 (p : Phone) : String := String.mk (p.number.data.drop p.n1_length)

/-- Area code with a leading zero (empty stays empty). -/
def Phone.area_code_long (p : Phone) : String :=
  if p.area_code = "" then "" else "0" ++ p.area_code

/-- The characters accepted by the class of `FORMAT_TOKENS = (%[caAnflx])`. -/
def isFmtChar (c : Char) : Bool :=
  c = 'c' || c = 'a' || c = 'A' || c = 'n' || c = 'f' || c = 'l' || c = 'x'

/-- `re.findall(FORMAT_TOKENS, pattern)`: the `%`-tokens of the pattern,
left to right, non-overlapping. -/
def formatTokens : List Char → List (List Char)
  | [] => []
  | '%' :: c :: r =>
    if isFmtChar c then ['%', c] :: formatTokens r else formatTokens (c :: r)
  | _ :: r => formatTokens r

/-- `_remove_useless_plus`: collapse a leading `"+ +"` or `"++"` to `"+"`
(the regex is anchored; the first alternative is tried first). -/
def removeUselessPlus (l : List Char) : List Char :=
  if l.take 3 = ['+', ' ', '+'] then '+' :: l.drop 3
  else if l.take 2 = ['+', '+'] then '+' :: l.drop 2
  else l

/-- The token replacement table of `_format_number`
(`replacements.get(match, "")`). -/
def fmtRepl (p : Phone) (t : List Char) : List Char :=
  if t = ['%', 'c'] then p.country_code.data
  else if t = ['%', 'a'] then p.area_code.data
  else if t = ['%', 'A'] then p.area_code_long.data
  else if t = ['%', 'n'] then p.number.data
  else if t = ['%', 'f'] then p.number1.data
  else if t = ['%', 'l'] then p.number2.data
  else if t = ['%', 'x'] then p.extension.data
  else []

/-- `_format_number`: each found token is replaced once
(`str.replace(..., 1)`) on the evolving result, then duplicate leading
plus signs are collapsed. -/
def formatNumber (p : Phone) (pattern : String) : String :=
  String.mk (removeUselessPlus
    ((formatTokens pattern.data).foldl (fun r m => replaceFirst m (fmtRepl p m) r)
      pattern.data))

/-- `NAMED_FORMATS`. -/
def namedFormats : List (String × String) :=
  [("default", "+%c%a%n"),
   ("default_with_extension", "+%c%a%n%x"),
   ("europe", "+%c (0) %a %f %l"),
   ("us", "(%a) %f-%l")]

/-- `NAMED_FORMATS.get(fmt, fmt)`. -/
def namedLookup (f : String) : String :=
  ((namedFormats.find? fun q => q.1 = f).map Prod.snd).getD f

/-- `Phone.format`: use the named format if it exists, else the argument
itself as a custom pattern. -/
def Phone.format (p : Phone) (f : String) : String :=
  formatNumber p (namedLookup f)

/-! ### The embedding reproduces the repository's test expectations
(`tests/test_phone.py`) -/

theorem repoTest_parse_with_defaults : parse "451588" "385" "47" =
    .ok (some ⟨"451588", "47", "+385", "", 3⟩) := by rfl

theorem repoTest_parse_us : parse "+12125551234" "" "" =
    .ok (some ⟨"5551234", "212", "+1", "", 3⟩) := by rfl

theorem repoTest_parse_empty : parse "" "" "" = .ok none := by rfl

theorem repoTest_missing_area : parse "5125486" "385" "" =
    .error PErr.MissingAreaCode := by rfl

theorem repoTest_format_us :
    Phone.format ⟨"5551234", "212", "+1", "", 3⟩ "us" = "(212) 555-1234" := by rfl

theorem repoTest_format_custom :
    Phone.format ⟨"5125486", "91", "+385", "", 3⟩ "%A/%f-%l" = "091/512-5486" := by rfl

theorem repoTest_format_europe :
    Phone.format ⟨"5125486", "91", "+385", "", 3⟩ "europe" = "+385 (0) 91 512 5486" := by rfl

theorem repoTest_is_valid :
    is_valid "invalid" "" "" = false ∧ is_valid "+385915125486" "" "" = true :=
  ⟨by rfl, by rfl⟩

/-! ### Claims -/

/-- C1: `parse("+385915125486")` succeeds and yields country_dialing_code
`"+385"`, area_code `"91"`, subscriber_number `"5125486"`, and empty
extension. -/
theorem claim_C1 : parse "+385915125486" "" "" =
    .ok (some ⟨"5125486", "91", "+385", "", 3⟩) := by rfl

/-- C5: `parse("00385915125486")` yields a result identical in every
field to `parse("+385915125486")`, for any fixed contents of the default
store. -/
theorem claim_C5 (defCC defAC : String) :
    parse "00385915125486" defCC defAC = parse "+385915125486" defCC defAC := by rfl

/-- C8: `parse("+385915125486x148")` yields extension `"x148"` (the
matched text verbatim), which contains `"148"`, while subscriber_number
and area_code equal those of `parse("+385915125486")`. -/
theorem claim_C8 :
    parse "+385915125486x148" "" "" =
      .ok (some ⟨"5125486", "91", "+385", "x148", 3⟩) ∧
    parse "+385915125486" "" "" =
      .ok (some ⟨"5125486", "91", "+385", "", 3⟩) ∧
    "148".data <:+: "x148".data :=
  ⟨by rfl, by rfl, ⟨['x'], [], by rfl⟩⟩

/-- C4: when country detection on the normalized, extension-stripped
input finds no country (no dialing-code prefix and no usable default),
`parse` fails with `MissingCountryCode`; in particular
`parse("915125486")` with no default set. -/
theorem claim_C4 (s defCC defAC : String)
    (hb : pyIsBlank s = false)
    (hd : detect_from_number (normalizeL (extractExtensionL s.data).1) defCC = none) :
    parse s defCC defAC = .error PErr.MissingCountryCode := by
  unfold parse splitToParts
  rw [hb, hd]
  simp

theorem claim_C4_witness :
    parse "915125486" "" "" = .error PErr.MissingCountryCode :=
  claim_C4 "915125486" "" "" (by rfl) (by rfl)

/-- C3: `is_valid` is true exactly when `parse` returns a non-empty
result; every failure kind maps to false, and blank (whitespace-only)
input maps to false.  `parse` is embedded as a total function into
`Except`, so no exception can escape `is_valid`. -/
theorem claim_C3 (t defCC defAC : String) :
    (is_valid t defCC defAC = true ↔ ∃ p, parse t defCC defAC = .ok (some p)) ∧
    (∀ e, parse t defCC defAC = .error e → is_valid t defCC defAC = false) ∧
    (pyIsBlank t = true → is_valid t defCC defAC = false) := by
  refine ⟨?_, ?_, ?_⟩
  · unfold is_valid
    cases h : parse t defCC defAC with
    | error e => simp
    | ok o =>
      cases o with
      | none => simp
      | some p => simp
  · intro e he
    unfold is_valid
    rw [he]
  · intro hb
    unfold is_valid parse
    rw [hb]
    simp

theorem claim_C3_witness : is_valid " " "" "" = false :=
  (claim_C3 " " "" "").2.2 (by rfl)

/-! ### Helper lemmas -/

theorem stringMk_eq_empty_iff (l : List Char) : String.mk l = "" ↔ l = [] := by
  constructor
  · intro h
    simpa using congrArg String.data h
  · intro h
    rw [h]

theorem pick_aux {c : Country} :
    ∀ (l : List Country) (acc : Option Country),
      l.foldl
        (fun acc c =>
          match acc with
          | none => some c
          | some b =>
            if b.country_code.length < c.country_code.length then some c else some b)
        acc = some c →
      acc = some c ∨ c ∈ l := by
  intro l
  induction l with
  | nil => exact fun acc h => Or.inl h
  | cons x xs ih =>
    intro acc h
    rcases ih _ h with h' | h'
    · cases acc with
      | none =>
        right
        simp only [Option.some.injEq] at h'
        simp [h']
      | some b =>
        simp only at h'
        split at h'
        · right
          simp only [Option.some.injEq] at h'
          simp [h']
        · left
          simpa using h'
    · right
      exact List.mem_cons_of_mem _ h'

theorem pickLongest_mem {l : List Country} {c : Country}
    (h : pickLongest l = some c) : c ∈ l := by
  unfold pickLongest at h
  rcases pick_aux l none h with h' | h'
  · exact absurd h' (by simp)
  · exact h'

theorem detect_mem {l : List Char} {d : String} {c : Country}
    (h : detect_from_number l d = some c) : c = croatia ∨ c = usa := by
  have hreg : c ∈ registry := by
    unfold detect_from_number at h
    split at h
    · rename_i c' hp
      cases h
      exact List.mem_of_mem_filter (pickLongest_mem hp)
    · split at h
      · exact absurd h (by simp)
      · exact List.mem_of_find?_eq_some h
  simpa [registry] using hreg

theorem splitToParts_shape {l : List Char} {d : String} {n a cc : List Char}
    (h : splitToParts l d = .ok (n, a, cc)) :
    ∃ c, detect_from_number l d = some c ∧ cc = '+' :: c.country_code.data ∧
      (a = [] ∨
        c.areaMatch ((ccSubL c.country_code.data l).dropWhile (· = '0')) = some a) := by
  unfold splitToParts at h
  split at h
  · exact absurd h (by simp)
  · rename_i c hd
    dsimp only at h
    refine ⟨c, hd, ?_⟩
    split at h
    · split at h
      · split at h
        · simp only [Except.ok.injEq, Prod.mk.injEq] at h
          exact ⟨h.2.2.symm, Or.inl h.2.1.symm⟩
        · rename_i hne
          simp only [Except.ok.injEq, Prod.mk.injEq] at h
          refine ⟨h.2.2.symm, Or.inr ?_⟩
          cases hM : c.areaMatch ((ccSubL c.country_code.data l).dropWhile (· = '0')) with
          | none =>
            rw [hM] at h hne
            simp at hne
          | some x =>
            rw [hM] at h
            simp only [Option.getD_some] at h
            rw [h.2.1]
      · simp only [Except.ok.injEq, Prod.mk.injEq] at h
        exact ⟨h.2.2.symm, Or.inl h.2.1.symm⟩
    · exact absurd h (by simp)

/-- Inversion for a successful, non-empty `parse`. -/
theorem parse_ok_inv {s defCC defAC : String} {p : Phone}
    (h : parse s defCC defAC = .ok (some p)) :
    ∃ n a cc av ccv,
      splitToParts (normalizeL (extractExtensionL s.data).1) defCC = .ok (n, a, cc) ∧
      ((cc = [] ∧ defCC ≠ "" ∧ ccv = '+' :: defCC.data) ∨ (cc ≠ [] ∧ ccv = cc)) ∧
      ((a = [] ∧ defAC ≠ "" ∧ av = defAC.data) ∨ (a ≠ [] ∧ av = a)) ∧
      n ≠ [] ∧
      p = ⟨String.mk n, String.mk av, String.mk ccv,
           String.mk (extractExtensionL s.data).2, 3⟩ := by
  unfold parse at h
  split at h
  · exact absurd h (by simp)
  · split at h
    · exact absurd h (by simp)
    · rename_i n a cc hsplit
      split at h
      · exact absurd h (by simp)
      · rename_i ccv hccv
        split at h
        · exact absurd h (by simp)
        · rename_i av hav
          split at h
          · exact absurd h (by simp)
          · rename_i hn
            refine ⟨n, a, cc, av, ccv, hsplit, ?_, ?_, ?_, ?_⟩
            · split at hccv
              · split at hccv
                · exact absurd hccv (by simp)
                · rename_i hcce hdef
                  simp only [Option.some.injEq] at hccv
                  exact Or.inl ⟨by simpa using hcce, hdef, hccv.symm⟩
              · rename_i hcce
                simp only [Option.some.injEq] at hccv
                exact Or.inr ⟨by simpa using hcce, hccv.symm⟩
            · split at hav
              · split at hav
                · exact absurd hav (by simp)
                · rename_i hae hdef
                  simp only [Option.some.injEq] at hav
                  exact Or.inl ⟨by simpa using hae, hdef, hav.symm⟩
              · rename_i hae
                simp only [Option.some.injEq] at hav
                exact Or.inr ⟨by simpa using hae, hav.symm⟩
            · simpa using hn
            · simp only [Except.ok.injEq, Option.some.injEq] at h
              exact h.symm

/-! ### Claims (continued) -/

/-- C9: every successful non-empty `parse` yields a non-empty area code —
it comes from segmentation or from the default store, and `parse` fails
with `MissingAreaCode` rather than return an empty one. -/
theorem claim_C9 (s defCC defAC : String) (p : Phone)
    (h : parse s defCC defAC = .ok (some p)) : p.area_code ≠ "" := by
  obtain ⟨n, a, cc, av, ccv, _, _, hav, _, hp⟩ := parse_ok_inv h
  subst hp
  show String.mk av ≠ ""
  rcases hav with ⟨_, hdef, rfl⟩ | ⟨hane, rfl⟩
  · show String.mk defAC.data ≠ ""
    intro hcontra
    exact hdef (by simpa using hcontra)
  · rw [Ne, stringMk_eq_empty_iff]
    exact hane

theorem claim_C9_witness : (⟨"5125486", "91", "+385", "", 3⟩ : Phone).area_code ≠ "" :=
  claim_C9 "+385915125486" "" "" _ (by rfl)

/-- C10: `_split_to_parts` either fails or returns a country code of the
form `"+"` followed by the detected country's dialing code, which is
never empty; hence the default-country-code injection branch inside
`parse` is unreachable, and the default takes effect only as the
fallback argument of country detection. -/
theorem claim_C10 (l : List Char) (d : String) (n a cc : List Char)
    (h : splitToParts l d = .ok (n, a, cc)) :
    cc ≠ [] ∧ ∃ c, detect_from_number l d = some c ∧ cc = '+' :: c.country_code.data := by
  obtain ⟨c, hd, hcc, _⟩ := splitToParts_shape h
  exact ⟨by rw [hcc]; simp, c, hd, hcc⟩

theorem claim_C10_witness :
    "+385".data ≠ [] ∧
    ∃ c, detect_from_number "+385915125486".data "" = some c ∧
      "+385".data = '+' :: c.country_code.data :=
  claim_C10 "+385915125486".data "" "5125486".data "91".data "+385".data (by rfl)

/-- C7 counterexample: the `Phone` dataclass performs no validation —
constructing a `Phone` with empty `country_code` and empty `number`
succeeds and leaves both fields empty, contrary to the claim that such
construction fails. -/
theorem claim_C7_cex :
    (Phone.mk "" "" "" "" 3).country_code = "" ∧ (Phone.mk "" "" "" "" 3).number = "" :=
  ⟨rfl, rfl⟩

/-- C7 (amended): direct construction of a `Phone` is unvalidated, but
every `Phone` returned by `parse` has a non-empty country_dialing_code
and a non-empty subscriber_number (`parse` raises instead). -/
theorem claim_C7 (s defCC defAC : String) (p : Phone)
    (h : parse s defCC defAC = .ok (some p)) :
    p.country_code ≠ "" ∧ p.number ≠ "" := by
  obtain ⟨n, a, cc, av, ccv, hsplit, hccv, _, hn, hp⟩ := parse_ok_inv h
  subst hp
  constructor
  · show String.mk ccv ≠ ""
    rw [Ne, stringMk_eq_empty_iff]
    rcases hccv with ⟨_, _, rfl⟩ | ⟨hne, rfl⟩
    · simp
    · exact hne
  · show String.mk n ≠ ""
    rw [Ne, stringMk_eq_empty_iff]
    exact hn

theorem claim_C7_witness :
    (⟨"5125486", "91", "+385", "", 3⟩ : Phone).country_code ≠ "" ∧
    (⟨"5125486", "91", "+385", "", 3⟩ : Phone).number ≠ "" :=
  claim_C7 "+385915125486" "" "" _ (by rfl)

/-- C6 counterexample: normalization is not idempotent.  On `"a0)"` the
match list is `["a", ")"]`, but when the second `count=1` substitution
runs, the leading `"0"` of the intermediate result `"0)"` is the
leftmost match and gets consumed instead of `")"`; the output `")"`
still normalizes further, to `""`. -/
theorem claim_C6_cex : ¬ normalize (normalize "a0)") = normalize "a0)" := by decide

/-- C6 (amended): re-running normalization is a no-op on every input
whose normalized output contains no further occurrence of the
common-extras pattern (no `"(0)"`, no character outside digits and
`'+'`, and no leading `0`/`00`/`+0`/`+00`); in general normalization is
not idempotent. -/
theorem claim_C6 (s : String) (h : extrasFindall (normalize s).data = []) :
    normalize (normalize s) = normalize s := by
  show String.mk (normalizeL (normalizeL s.data)) = String.mk (normalizeL s.data)
  have h' : extrasFindall (normalizeL s.data) = [] := h
  conv_lhs => rw [normalizeL, h']
  rfl

theorem claim_C6_witness :
    normalize (normalize "+385915125486") = normalize "+385915125486" :=
  claim_C6 "+385915125486" (by rfl)

/-! ### Formatting lemmas for the round-trip claim -/

theorem replaceFirst_skip {ts r : List Char} :
    ∀ (x y : List Char), (∀ ch ∈ x, ch ≠ '%') →
      replaceFirst ('%' :: ts) r (x ++ y) = x ++ replaceFirst ('%' :: ts) r y := by
  intro x
  induction x with
  | nil => exact fun y _ => rfl
  | cons a as ih =>
    intro y hx
    have ha : ('%' : Char) ≠ a := Ne.symm (hx a (List.mem_cons_self a as))
    show replaceFirst ('%' :: ts) r (a :: (as ++ y)) =
      a :: (as ++ replaceFirst ('%' :: ts) r y)
    rw [replaceFirst]
    rw [if_neg, ih _ fun ch hch => hx ch (List.mem_cons_of_mem a hch)]
    simp [isPre, ha]

theorem replaceFirst_hit (c2 : Char) (r rest : List Char) :
    replaceFirst ['%', c2] r ('%' :: c2 :: rest) = r ++ rest := by
  rw [replaceFirst, if_pos]
  · rfl
  · simp [isPre]

theorem digit_ne_percent {ch : Char} (h : ch.isDigit = true) : ch ≠ '%' := by
  intro he
  subst he
  exact Bool.noConfusion h

theorem removeUselessPlus_twoPlus (w : List Char) :
    removeUselessPlus ('+' :: '+' :: w) = '+' :: w := by
  rcases w with _ | ⟨v, w'⟩ <;> simp [removeUselessPlus]

/-- The `default` template applied to a phone whose country code starts
with `'+'`: all three tokens substitute in order and the doubled plus
collapses. -/
theorem format_default (code al nl ex : List Char)
    (hcode : ∀ ch ∈ code, ch ≠ '%') (hal : ∀ ch ∈ al, ch ≠ '%') :
    Phone.format ⟨String.mk nl, String.mk al, String.mk ('+' :: code), String.mk ex, 3⟩
      "default" = String.mk ('+' :: (code ++ al ++ nl)) := by
  have hx2 : ∀ ch ∈ ('+' :: '+' :: code), ch ≠ '%' := by
    intro ch hch
    rcases List.mem_cons.1 hch with rfl | hch
    · decide
    rcases List.mem_cons.1 hch with rfl | hch
    · decide
    · exact hcode ch hch
  have hx3 : ∀ ch ∈ ('+' :: '+' :: code) ++ al, ch ≠ '%' := by
    intro ch hch
    rcases List.mem_append.1 hch with hch | hch
    · exact hx2 ch hch
    · exact hal ch hch
  show String.mk (removeUselessPlus
      (replaceFirst ['%', 'n'] nl
        (replaceFirst ['%', 'a'] al
          (('+' :: '+' :: code) ++ ('%' :: 'a' :: '%' :: 'n' :: []))))) = _
  rw [replaceFirst_skip _ _ hx2, replaceFirst_hit]
  have hre : ('+' :: '+' :: code) ++ (al ++ '%' :: 'n' :: []) =
      (('+' :: '+' :: code) ++ al) ++ ('%' :: 'n' :: []) := by
    simp [List.append_assoc]
  rw [hre, replaceFirst_skip _ _ hx3, replaceFirst_hit]
  have hre2 : (('+' :: '+' :: code) ++ al) ++ (nl ++ []) =
      '+' :: '+' :: (code ++ al ++ nl) := by
    simp [List.append_assoc]
  rw [hre2, removeUselessPlus_twoPlus]

theorem areaMatch_digits {c : Country} (hc : c = croatia ∨ c = usa) {x a : List Char}
    (h : c.areaMatch x = some a) : ∀ ch ∈ a, ch.isDigit = true := by
  rcases hc with rfl | rfl
  · have h' : hrAreaMatch x = some a := h
    rcases x with _ | ⟨c1, _ | ⟨c2, rest⟩⟩
    · exact absurd h' (by simp [hrAreaMatch])
    · rw [hrAreaMatch] at h'
      split at h'
      · simp only [Option.some.injEq] at h'
        intro ch hch
        rw [← h'] at hch
        rcases List.mem_singleton.1 hch with rfl
        decide
      · exact absurd h' (by simp)
    · rw [hrAreaMatch] at h'
      split at h'
      · rename_i hcond
        simp only [Bool.and_eq_true] at hcond
        simp only [Option.some.injEq] at h'
        intro ch hch
        rw [← h'] at hch
        rcases List.mem_cons.1 hch with rfl | hch
        · exact hcond.1.1.1
        rcases List.mem_singleton.1 hch with rfl
        exact hcond.2
      · split at h'
        · simp only [Option.some.injEq] at h'
          intro ch hch
          rw [← h'] at hch
          rcases List.mem_singleton.1 hch with rfl
          decide
        · exact absurd h' (by simp)
  · have h' : usAreaMatch x = some a := h
    rcases x with _ | ⟨c1, _ | ⟨c2, _ | ⟨c3, rest⟩⟩⟩
    · exact absurd h' (by simp [usAreaMatch])
    · exact absurd h' (by simp [usAreaMatch])
    · exact absurd h' (by simp [usAreaMatch])
    · rw [usAreaMatch] at h'
      split at h'
      · rename_i hcond
        simp only [Bool.and_eq_true] at hcond
        simp only [Option.some.injEq] at h'
        intro ch hch
        rw [← h'] at hch
        rcases List.mem_cons.1 hch with rfl | hch
        · exact hcond.1.1.1.1
        rcases List.mem_cons.1 hch with rfl | hch
        · exact hcond.1.2
        rcases List.mem_singleton.1 hch with rfl
        exact hcond.2
      · exact absurd h' (by simp)

theorem registry_code_facts {c : Country} (hc : c = croatia ∨ c = usa) :
    c.country_code.data ≠ [] ∧ ∀ ch ∈ c.country_code.data, ch.isDigit = true := by
  rcases hc with rfl | rfl <;> exact ⟨by decide, by decide⟩

/-- C2: whenever `parse` succeeds with a non-empty result (the default
area code in the store, if consulted, being digits), formatting the
result with the named `default` template yields exactly `"+"` followed
by the dialing-code digits, the area code and the subscriber number,
with the doubled plus collapsed to a single leading `"+"`. -/
theorem claim_C2 (s defCC defAC : String) (p : Phone)
    (haa : ∀ ch ∈ defAC.data, ch.isDigit = true)
    (h : parse s defCC defAC = .ok (some p)) :
    ∃ d : String, p.country_code = "+" ++ d ∧ d ≠ "" ∧
      (∀ ch ∈ d.data, ch.isDigit = true) ∧
      p.format "default" = "+" ++ d ++ p.area_code ++ p.number := by
  obtain ⟨n, a, cc, av, ccv, hsplit, hccv, hav, hn, hp⟩ := parse_ok_inv h
  obtain ⟨c, hd, hcc, harea⟩ := splitToParts_shape hsplit
  have hcreg := detect_mem hd
  have hcode := registry_code_facts hcreg
  have hccv' : ccv = '+' :: c.country_code.data := by
    rcases hccv with ⟨hccnil, _, _⟩ | ⟨_, rfl⟩
    · rw [hcc] at hccnil
      exact absurd hccnil (by simp)
    · exact hcc
  have havd : ∀ ch ∈ av, ch.isDigit = true := by
    rcases hav with ⟨_, _, rfl⟩ | ⟨hane, rfl⟩
    · exact haa
    · rcases harea with rfl | hm
      · exact absurd rfl hane
      · exact areaMatch_digits hcreg hm
  subst hp
  rw [hccv']
  refine ⟨String.mk c.country_code.data, rfl, ?_, hcode.2, ?_⟩
  · rw [Ne, stringMk_eq_empty_iff]
    exact hcode.1
  · have := format_default c.country_code.data av n
      (String.mk (extractExtensionL s.data).2).data
      (fun ch hch => digit_ne_percent (hcode.2 ch hch))
      (fun ch hch => digit_ne_percent (havd ch hch))
    rw [this]
    show String.mk ('+' :: (c.country_code.data ++ av ++ n)) =
      String.mk (('+' :: c.country_code.data ++ av) ++ n)
    simp [List.append_assoc]

theorem claim_C2_witness :
    ∃ d : String,
      (⟨"5125486", "91", "+385", "", 3⟩ : Phone).country_code = "+" ++ d ∧ d ≠ "" ∧
      (∀ ch ∈ d.data, ch.isDigit = true) ∧
      (⟨"5125486", "91", "+385", "", 3⟩ : Phone).format "default" =
        "+" ++ d ++ (⟨"5125486", "91", "+385", "", 3⟩ : Phone).area_code ++
          (⟨"5125486", "91", "+385", "", 3⟩ : Phone).number :=
  claim_C2 "+385915125486" "" "" _ (by decide) (by rfl)

end PhoneToolkit
